import Mathlib

/-!
Shallow embedding of the order placement operation of the storefront
repository.  The embedded code is the Supabase edge function
`supabase/functions/create-order/index.ts` (the `Deno.serve` handler, from
the line `const { items } = await req.json()` onwards: the caller is
already authenticated, as the specification assumes), together with the
database constraints of the migration schema (`products.stock >= 0`,
`products.price >= 0`, `orders.total_amount >= 0`,
`order_items.quantity > 0`, `order_items.price >= 0`) that decide whether
a row write is accepted by the store.

Modelling choices:
* prices and order totals are exact integer numbers of hundredths
  (`Int`): a `numeric(10,2)` column is an exact two-decimal value, so we
  scale by 100 (10.00 becomes 1000) to keep every computation decidable;
  `price * quantity` and the running total are then the exact decimal
  arithmetic the schema stores;
* stock counts and requested quantities are integers (`Int`), mirroring
  the `integer` columns and arbitrary JS numbers in the request body;
* each `await supabase...` call is one atomic store operation; the
  handler is a function from the database state (plus a fault environment
  choosing which store writes the backend refuses) to the HTTP response,
  the new database state, and the list of store operations attempted;
* a second entry point, `commitPhase`, is the handler from the point
  where the product snapshot has been read; interleaving two invocations
  is expressed by running both product reads before either commit, which
  is a legal ordering of the atomic store calls of two concurrent
  requests.
-/

/-- One entry of the request body: `interface CartItem` in the source. -/
structure CartItem where
  product_id : String
  quantity : Int
deriving Repr, DecidableEq

/-- The `items` field extracted by `const { items }: OrderRequest = await req.json()`.
`missing` is a body where `items` is absent or `null` (caught by `!items`);
`malformed` is a present, non-null value that is not an array, on which
`items.map` throws a `TypeError` that lands in the `catch` handler. -/
inductive ItemsField where
  | missing
  | malformed
  | given (items : List CartItem)
deriving Repr, DecidableEq

/-- A row of the `products` table (the columns the handler reads). -/
structure Product where
  id : String
  name : String
  price : Int
  stock : Int
deriving Repr, DecidableEq

/-- A row of the `orders` table (the columns the handler writes). -/
structure Order where
  id : Nat
  user_id : String
  total_amount : Int
  status : String
deriving Repr, DecidableEq

/-- A row of the `order_items` table (the columns the handler writes). -/
structure OrderItem where
  order_id : Nat
  product_id : String
  quantity : Int
  price : Int
deriving Repr, DecidableEq

/-- The backing store: the three tables touched by the handler, plus the
generated-id counter for `orders.id`. -/
structure DB where
  products : List Product
  orders : List Order
  order_items : List OrderItem
  nextOrderId : Nat
deriving Repr, DecidableEq

/-- Environment choice of which store calls the backend refuses for
reasons other than a schema constraint (unavailability, policy, ...).
Constraint violations are modelled separately, inside each write. -/
structure StoreFaults where
  fetchProductsFails : Bool
  insertOrderFails : Bool
  insertOrderItemsFails : Bool
  stockUpdateFails : String → Bool

/-- The body of an HTTP response: either `{ error: msg }` or
`{ success: true, order }`. -/
inductive Body where
  | err (msg : String)
  | ok (order : Order)
deriving Repr, DecidableEq

/-- An HTTP response: status code and JSON body. -/
structure Response where
  status : Nat
  body : Body
deriving Repr, DecidableEq

/-- One attempted store operation, in order of issue. -/
inductive StoreEvent where
  | fetchProducts (ids : List String)
  | insertOrder (o : Order)
  | insertOrderItems (rows : List OrderItem)
  | updateStock (pid : String) (newStock : Int)
  | deleteOrder (oid : Nat)
deriving Repr, DecidableEq

/-- `products.find((p) => p.id === item.product_id)`. -/
def findProduct (products : List Product) (pid : String) : Option Product :=
  products.find? (fun p => p.id == pid)

/-- `items.map((item) => item.product_id)`. -/
def requestedIds (items : List CartItem) : List String :=
  items.map (fun it => it.product_id)

/-- The read `supabase.from("products").select("*").in("id", productIds)`:
the rows of the `products` table whose id is among the requested ids, in
table order. -/
def fetchSnapshot (db : DB) (items : List CartItem) : List Product :=
  db.products.filter (fun p => (requestedIds items).contains p.id)

/-- The validation loop (source lines 84-106): for each item in order,
a missing product yields the 404 response, an item whose quantity exceeds
the snapshot stock yields the 400 response; `none` means all items passed. -/
def validateItems (products : List Product) : List CartItem → Option Response
  | [] => none
  | it :: rest =>
    match findProduct products it.product_id with
    | none =>
        some ⟨404, Body.err ("Product " ++ it.product_id ++ " not found")⟩
    | some p =>
        if p.stock < it.quantity then
          some ⟨400, Body.err
            ("Insufficient stock for " ++ p.name ++ ". Available: " ++ toString p.stock)⟩
        else
          validateItems products rest

/-- The total computation loop (source lines 108-114):
`totalAmount += product.price * item.quantity`, skipping items whose
product is (impossibly, after validation) absent from the snapshot. -/
def computeTotal (products : List Product) (items : List CartItem) : Int :=
  items.foldl
    (fun acc it =>
      match findProduct products it.product_id with
      | some p => acc + p.price * it.quantity
      | none => acc)
    0

/-- The price captured into an order line: `product!.price` in the source.
After validation every requested id is present in the snapshot, so the
default is never reached on any path that builds order lines. -/
def priceOf (products : List Product) (pid : String) : Int :=
  match findProduct products pid with
  | some p => p.price
  | none => 0

/-- `const orderItems = items.map(...)` (source lines 136-144): one row
per request entry, quantity copied verbatim, price from the snapshot. -/
def mkOrderItems (oid : Nat) (products : List Product) (items : List CartItem) :
    List OrderItem :=
  items.map (fun it =>
    { order_id := oid
      product_id := it.product_id
      quantity := it.quantity
      price := priceOf products it.product_id })

/-- `{q with stock := s}` applied to every `products` row matching `pid`:
the write `update({ stock: ... }).eq("id", item.product_id)`. -/
def setStock (db : DB) (pid : String) (s : Int) : DB :=
  { db with
    products := db.products.map (fun q => if q.id == pid then { q with stock := s } else q) }

/-- The stock update loop (source lines 161-169): for each item whose
product is in the snapshot, issue an update setting that product's stock
to `snapshot stock - quantity`.  The update is refused (silently: the
handler never reads its result) when the fault environment says so or
when the new stock violates the schema constraint `stock >= 0`. -/
def applyStockUpdates (faults : StoreFaults) (products : List Product) :
    List CartItem → DB → DB × List StoreEvent
  | [], db => (db, [])
  | it :: rest, db =>
    match findProduct products it.product_id with
    | none => applyStockUpdates faults products rest db
    | some p =>
        let newStock := p.stock - it.quantity
        let db' :=
          if faults.stockUpdateFails it.product_id || newStock < 0 then db
          else setStock db it.product_id newStock
        let r := applyStockUpdates faults products rest db'
        (r.1, StoreEvent.updateStock it.product_id newStock :: r.2)

/-- The handler from the point where the product snapshot has been read
(source lines 84-177): validation, total, order insert (refused on fault
or on `total_amount >= 0` violation), order-items insert (refused on
fault or on a `quantity > 0` / `price >= 0` violation, and rolled back by
deleting the order header), stock updates (results ignored), success
response. -/
def commitPhase (faults : StoreFaults) (user_id : String) (items : List CartItem)
    (products : List Product) (db : DB) : Response × DB × List StoreEvent :=
  match validateItems products items with
  | some resp => (resp, db, [])
  | none =>
    let totalAmount := computeTotal products items
    let order : Order :=
      { id := db.nextOrderId, user_id := user_id, total_amount := totalAmount,
        status := "pending" }
    if faults.insertOrderFails || totalAmount < 0 then
      (⟨500, Body.err "Failed to create order"⟩, db, [StoreEvent.insertOrder order])
    else
      let db1 : DB :=
        { db with orders := db.orders ++ [order], nextOrderId := db.nextOrderId + 1 }
      let orderItems := mkOrderItems order.id products items
      if faults.insertOrderItemsFails
          || orderItems.any (fun oi => oi.quantity ≤ 0 || oi.price < 0) then
        let db2 : DB :=
          { db1 with orders := db1.orders.filter (fun o => o.id ≠ order.id) }
        (⟨500, Body.err "Failed to create order items"⟩, db2,
          [StoreEvent.insertOrder order, StoreEvent.insertOrderItems orderItems,
            StoreEvent.deleteOrder order.id])
      else
        let db2 : DB := { db1 with order_items := db1.order_items ++ orderItems }
        let r := applyStockUpdates faults products items db2
        (⟨200, Body.ok order⟩, r.1,
          [StoreEvent.insertOrder order, StoreEvent.insertOrderItems orderItems] ++ r.2)

/-- The full handler (source lines 56-186, post-authentication): empty or
missing `items` is rejected with 400 before any store access; a
non-array `items` value throws inside the handler and is turned into a
500 by the `catch` block; otherwise the product snapshot is read (500 if
the read fails) and `commitPhase` runs. -/
def handleOrder (faults : StoreFaults) (user_id : String) (body : ItemsField)
    (db : DB) : Response × DB × List StoreEvent :=
  match body with
  | ItemsField.missing => (⟨400, Body.err "Cart is empty"⟩, db, [])
  | ItemsField.malformed =>
      (⟨500, Body.err "items.map is not a function"⟩, db, [])
  | ItemsField.given items =>
    if items.isEmpty then (⟨400, Body.err "Cart is empty"⟩, db, [])
    else
      let ids := requestedIds items
      if faults.fetchProductsFails then
        (⟨500, Body.err "Failed to fetch products"⟩, db, [StoreEvent.fetchProducts ids])
      else
        let r := commitPhase faults user_id items (fetchSnapshot db items) db
        (r.1, r.2.1, StoreEvent.fetchProducts ids :: r.2.2)

/-- A fault-free store: every write the schema admits is accepted. -/
def noFaults : StoreFaults :=
  { fetchProductsFails := false, insertOrderFails := false,
    insertOrderItemsFails := false, stockUpdateFails := fun _ => false }

/-- The stock column of the first `products` row with the given id. -/
def stockOf (db : DB) (pid : String) : Option Int :=
  (db.products.find? (fun q => q.id == pid)).map (fun q => q.stock)

/-- Two invocations racing: both product reads happen against `db0`
before either invocation commits — a legal interleaving of the atomic
store calls of two concurrent requests (reads at lines 69-72 of both,
then all writes of the first, then all writes of the second). -/
def interleavedReadsFirst (fA fB : StoreFaults) (uA uB : String)
    (itemsA itemsB : List CartItem) (db0 : DB) : Response × Response × DB :=
  let snapA := fetchSnapshot db0 itemsA
  let snapB := fetchSnapshot db0 itemsB
  let rA := commitPhase fA uA itemsA snapA db0
  let rB := commitPhase fB uB itemsB snapB rA.2.1
  (rA.1, rB.1, rB.2.1)

/-- Two invocations run strictly one after the other. -/
def sequentialRuns (fA fB : StoreFaults) (uA uB : String)
    (bodyA bodyB : ItemsField) (db0 : DB) : Response × Response × DB :=
  let rA := handleOrder fA uA bodyA db0
  let rB := handleOrder fB uB bodyB rA.2.1
  (rA.1, rB.1, rB.2.1)

/-- The last request entry naming a given product id, if any.  Because
the stock update loop issues absolute writes computed from the snapshot,
this entry alone determines the product's final stock. -/
def lastRequested (pid : String) : List CartItem → Option CartItem
  | [] => none
  | it :: rest =>
    match lastRequested pid rest with
    | some jt => some jt
    | none => if it.product_id == pid then some it else none

/-- A one-product catalog: the specification's product A (stock 5,
price 10.00, stored here as 1000 hundredths). -/
def widgetDB : DB :=
  { products := [{ id := "A", name := "Widget", price := 1000, stock := 5 }],
    orders := [], order_items := [], nextOrderId := 1 }

/-- A store that accepts everything except the stock updates. -/
def allStockWritesFail : StoreFaults :=
  { noFaults with stockUpdateFails := fun _ => true }

/-- A run of the handler in which the commit phase cannot complete in
full: the order and line-item inserts succeed but every stock update is
refused by the store. -/
def c1Run : Response × DB × List StoreEvent :=
  handleOrder allStockWritesFail "u" (ItemsField.given [⟨"A", 3⟩]) widgetDB

/-- Two fault-free invocations racing for the last unit of product `P`
(stock 1), both asking for quantity 1, with both product reads scheduled
before either commit. -/
def c2Run : Response × Response × DB :=
  interleavedReadsFirst noFaults noFaults "ua" "ub" [⟨"P", 1⟩] [⟨"P", 1⟩]
    { products := [{ id := "P", name := "Gadget", price := 500, stock := 1 }],
      orders := [], order_items := [], nextOrderId := 1 }

/-- A fault-free run with duplicate entries for the same product. -/
def c4Run : Response × DB × List StoreEvent :=
  handleOrder noFaults "u" (ItemsField.given [⟨"A", 1⟩, ⟨"A", 1⟩]) widgetDB

/-- A fault-free run whose single entry requests quantity zero. -/
def c5Run : Response × DB × List StoreEvent :=
  handleOrder noFaults "u" (ItemsField.given [⟨"A", 0⟩]) widgetDB

/-- A fault-free run requesting 5 units of product B, which has stock 2
(the specification's second scenario). -/
def c6Run : Response × DB × List StoreEvent :=
  handleOrder noFaults "u" (ItemsField.given [⟨"B", 5⟩])
    { products := [{ id := "B", name := "B", price := 2000, stock := 2 }],
      orders := [], order_items := [], nextOrderId := 1 }

/-- C1: atomicity of the commit phase fails on the code.  At the failing
input (product A with stock 5, request for quantity 3, stock update
refused by the store) the handler still answers 200 and keeps the order
header and its line item while the stock is unchanged at 5 — neither
branch of the claimed all-or-nothing disjunction holds, and no row
written during the attempt is removed. -/
theorem placeOrder_partial_state_on_stock_write_failure :
    c1Run.1.status = 200 ∧
    c1Run.2.1.orders = [⟨1, "u", 3000, "pending"⟩] ∧
    c1Run.2.1.order_items = [⟨1, "A", 3, 1000⟩] ∧
    stockOf c1Run.2.1 "A" = some 5 ∧
    ¬ ((c1Run.2.1.orders ≠ [] ∧ c1Run.2.1.order_items ≠ [] ∧
          stockOf c1Run.2.1 "A" = some 2) ∨
        (c1Run.2.1.orders = [] ∧ c1Run.2.1.order_items = [] ∧
          stockOf c1Run.2.1 "A" = some 5)) := by
  decide

/-- C2: under the interleaving in which both invocations read the
product snapshot before either commits, two racing orders for the last
unit of stock BOTH succeed: two order headers are committed, the
persisted line items jointly allocate 2 units of a product whose stock
was 1, and the final stock is 0 — not "exactly one succeeds and the
other fails with InsufficientStock". -/
theorem concurrent_over_allocation_both_succeed :
    c2Run.1.status = 200 ∧ c2Run.2.1.status = 200 ∧
    c2Run.2.2.orders.length = 2 ∧
    (c2Run.2.2.order_items.map (fun oi => oi.quantity)).sum = 2 ∧
    stockOf c2Run.2.2 "P" = some 0 := by
  decide

/-- C4 counterexample: with duplicate entries `[(A,1), (A,1)]` against
stock 5, each stock update writes `snapshot stock - quantity`, so the
second write overwrites the first instead of accumulating: the final
stock is 4, not the claimed 5 - (1+1) = 3. -/
theorem duplicate_entries_do_not_accumulate :
    c4Run.1.status = 200 ∧
    stockOf c4Run.2.1 "A" = some 4 ∧
    stockOf c4Run.2.1 "A" ≠ some 3 := by
  decide

/-- C5: a request with quantity zero is NOT rejected at input validation.
The handler fetches products, runs the stock check (`stock < 0` is
false), inserts the order header, attempts the line-item insert (refused
by the `quantity > 0` schema constraint), rolls the header back, and
answers 500 — store reads and writes all happened, and the status is not
the claimed 400. -/
theorem zero_quantity_reaches_store_and_returns_500 :
    c5Run.1 = ⟨500, Body.err "Failed to create order items"⟩ ∧
    c5Run.2.2 = [StoreEvent.fetchProducts ["A"],
      StoreEvent.insertOrder ⟨1, "u", 0, "pending"⟩,
      StoreEvent.insertOrderItems [⟨1, "A", 0, 1000⟩],
      StoreEvent.deleteOrder 1] ∧
    c5Run.1.status ≠ 400 := by
  decide

/-- C6 counterexample: requesting 5 units of product B (stock 2) fails
with the 400 response whose message names the product and the available
stock but not the requested quantity: no character `5` occurs anywhere
in the message. -/
theorem insufficient_stock_error_omits_requested_quantity :
    c6Run.1 = ⟨400, Body.err "Insufficient stock for B. Available: 2"⟩ ∧
    ¬ ('5' ∈ "Insufficient stock for B. Available: 2".data) := by
  decide

/-- C8 counterexample: a malformed (non-array) `items` value is not
answered with 400: the thrown `TypeError` lands in the `catch` block,
which answers 500. -/
theorem malformed_items_returns_500_not_400 :
    (handleOrder noFaults "u" ItemsField.malformed widgetDB).1.status = 500 ∧
    (handleOrder noFaults "u" ItemsField.malformed widgetDB).1.status ≠ 400 := by
  decide

/-- C8 amended: an empty or missing `items` list is rejected with 400
("Cart is empty") before any store access — the database is untouched
and the store-operation trace is empty — while a malformed (non-array)
`items` value raises inside the handler and is answered with 500, also
without store access. -/
theorem empty_items_rejected_without_store_access (faults : StoreFaults)
    (uid : String) (db : DB) :
    handleOrder faults uid (ItemsField.given []) db
        = (⟨400, Body.err "Cart is empty"⟩, db, []) ∧
    handleOrder faults uid ItemsField.missing db
        = (⟨400, Body.err "Cart is empty"⟩, db, []) ∧
    handleOrder faults uid ItemsField.malformed db
        = (⟨500, Body.err "items.map is not a function"⟩, db, []) :=
  ⟨rfl, rfl, rfl⟩

theorem validateItems_some_status (ps : List Product) :
    ∀ (items : List CartItem) (r : Response),
      validateItems ps items = some r → r.status = 404 ∨ r.status = 400 := by
  intro items
  induction items with
  | nil => intro r h; simp [validateItems] at h
  | cons it rest ih =>
    intro r h
    simp only [validateItems] at h
    split at h
    · cases h
      left; rfl
    · split at h
      · cases h
        right; rfl
      · exact ih r h

theorem setStock_orders (db : DB) (pid : String) (s : Int) :
    (setStock db pid s).orders = db.orders := rfl

theorem setStock_order_items (db : DB) (pid : String) (s : Int) :
    (setStock db pid s).order_items = db.order_items := rfl

theorem applyStockUpdates_frame (f : StoreFaults) (ps : List Product) :
    ∀ (items : List CartItem) (db : DB),
      (applyStockUpdates f ps items db).1.orders = db.orders ∧
      (applyStockUpdates f ps items db).1.order_items = db.order_items ∧
      (applyStockUpdates f ps items db).1.nextOrderId = db.nextOrderId := by
  intro items
  induction items with
  | nil => intro db; exact ⟨rfl, rfl, rfl⟩
  | cons it rest ih =>
    intro db
    simp only [applyStockUpdates]
    cases hfind : findProduct ps it.product_id with
    | none => exact ih db
    | some p =>
        have hbase :
            ∀ db' : DB,
              (if f.stockUpdateFails it.product_id || p.stock - it.quantity < 0 then db'
                else setStock db' it.product_id (p.stock - it.quantity)).orders = db'.orders ∧
              (if f.stockUpdateFails it.product_id || p.stock - it.quantity < 0 then db'
                else setStock db' it.product_id (p.stock - it.quantity)).order_items
                  = db'.order_items ∧
              (if f.stockUpdateFails it.product_id || p.stock - it.quantity < 0 then db'
                else setStock db' it.product_id (p.stock - it.quantity)).nextOrderId
                  = db'.nextOrderId := by
          intro db'; split <;> exact ⟨rfl, rfl, rfl⟩
        have h1 := ih (if f.stockUpdateFails it.product_id || p.stock - it.quantity < 0 then db
          else setStock db it.product_id (p.stock - it.quantity))
        have h2 := hbase db
        exact ⟨h1.1.trans h2.1, h1.2.1.trans h2.2.1, h1.2.2.trans h2.2.2⟩

theorem commitPhase_response_of_stock_faults (f : StoreFaults) (g : String → Bool)
    (uid : String) (items : List CartItem) (ps : List Product) (db : DB) :
    (commitPhase { f with stockUpdateFails := g } uid items ps db).1 =
      (commitPhase f uid items ps db).1 := by
  obtain ⟨f1, f2, f3, f4⟩ := f
  simp only [commitPhase]
  cases hval : validateItems ps items with
  | some r => rfl
  | none =>
      simp only
      split
      · rfl
      · split <;> rfl

/-- C10: the handler's HTTP response never depends on the outcome of the
per-product stock updates — their results are not checked — and at a
concrete input where every stock update is refused, the handler still
answers 200 with the created order while the stock stays at 5. -/
theorem response_ignores_stock_update_results :
    (∀ (f : StoreFaults) (g : String → Bool) (uid : String) (body : ItemsField) (db : DB),
      (handleOrder { f with stockUpdateFails := g } uid body db).1 =
        (handleOrder f uid body db).1) ∧
    (handleOrder allStockWritesFail "u2" (ItemsField.given [⟨"A", 2⟩]) widgetDB).1
        = ⟨200, Body.ok ⟨1, "u2", 2000, "pending"⟩⟩ ∧
    stockOf (handleOrder allStockWritesFail "u2" (ItemsField.given [⟨"A", 2⟩]) widgetDB).2.1 "A"
        = some 5 := by
  refine ⟨?_, by decide, by decide⟩
  intro f g uid body db
  cases body with
  | missing => rfl
  | malformed => rfl
  | given items =>
      obtain ⟨f1, f2, f3, f4⟩ := f
      simp only [handleOrder]
      split
      · rfl
      · split
        · rfl
        · exact commitPhase_response_of_stock_faults ⟨f1, f2, f3, f4⟩ g uid items
            (fetchSnapshot db items) db

theorem handleOrder_given (f : StoreFaults) (uid : String) (items : List CartItem)
    (db : DB) :
    handleOrder f uid (ItemsField.given items) db =
      if items.isEmpty then (⟨400, Body.err "Cart is empty"⟩, db, [])
      else if f.fetchProductsFails then
        (⟨500, Body.err "Failed to fetch products"⟩, db,
          [StoreEvent.fetchProducts (requestedIds items)])
      else
        ((commitPhase f uid items (fetchSnapshot db items) db).1,
          (commitPhase f uid items (fetchSnapshot db items) db).2.1,
          StoreEvent.fetchProducts (requestedIds items) ::
            (commitPhase f uid items (fetchSnapshot db items) db).2.2) := rfl

theorem commitPhase_of_validation_failure (f : StoreFaults) (uid : String)
    (items : List CartItem) (ps : List Product) (db : DB) (resp : Response)
    (hval : validateItems ps items = some resp) :
    commitPhase f uid items ps db = (resp, db, []) := by
  simp [commitPhase, hval]

theorem handleOrder_success_shape (f : StoreFaults) (uid : String)
    (items : List CartItem) (db : DB)
    (h : (handleOrder f uid (ItemsField.given items) db).1.status = 200) :
    validateItems (fetchSnapshot db items) items = none ∧
    (handleOrder f uid (ItemsField.given items) db).1 =
      ⟨200, Body.ok ⟨db.nextOrderId, uid,
        computeTotal (fetchSnapshot db items) items, "pending"⟩⟩ ∧
    (handleOrder f uid (ItemsField.given items) db).2.1 =
      (applyStockUpdates f (fetchSnapshot db items) items
        { products := db.products,
          orders := db.orders ++
            [⟨db.nextOrderId, uid, computeTotal (fetchSnapshot db items) items, "pending"⟩],
          order_items := db.order_items ++
            mkOrderItems db.nextOrderId (fetchSnapshot db items) items,
          nextOrderId := db.nextOrderId + 1 }).1 ∧
    (∀ oi ∈ mkOrderItems db.nextOrderId (fetchSnapshot db items) items,
      0 < oi.quantity ∧ 0 ≤ oi.price) := by
  by_cases hne : items.isEmpty
  · rw [handleOrder_given] at h
    simp [hne] at h
  · by_cases hfetch : f.fetchProductsFails
    · rw [handleOrder_given] at h
      simp [hne, hfetch] at h
    · cases hval : validateItems (fetchSnapshot db items) items with
      | some resp =>
          exfalso
          rw [handleOrder_given] at h
          simp only [hne, hfetch, if_false, Bool.false_eq_true,
            commitPhase_of_validation_failure f uid items (fetchSnapshot db items) db resp hval] at h
          rcases validateItems_some_status _ _ _ hval with h4 | h4 <;> omega
      | none =>
          cases hord : (f.insertOrderFails
              || decide (computeTotal (fetchSnapshot db items) items < 0)) with
          | true =>
              exfalso
              rw [handleOrder_given] at h
              simp [hne, hfetch, commitPhase, hval, hord] at h
          | false =>
              cases hit : (f.insertOrderItemsFails
                  || (mkOrderItems db.nextOrderId (fetchSnapshot db items) items).any
                      (fun oi => decide (oi.quantity ≤ 0) || decide (oi.price < 0))) with
              | true =>
                  exfalso
                  rw [handleOrder_given] at h
                  simp [hne, hfetch, commitPhase, hval, hord, hit] at h
              | false =>
                  refine ⟨rfl, ?_, ?_, ?_⟩
                  · rw [handleOrder_given]
                    simp [hne, hfetch, commitPhase, hval, hord, hit]
                  · rw [handleOrder_given]
                    simp [hne, hfetch, commitPhase, hval, hord, hit]
                  · intro oi hoi
                    have hq := hit
                    simp only [Bool.or_eq_false_iff, List.any_eq_false,
                      Bool.or_eq_true, decide_eq_true_eq, not_or, not_le, not_lt] at hq
                    exact hq.2 oi hoi

theorem computeTotal_eq_sum (ps : List Product) (items : List CartItem) :
    computeTotal ps items
      = (items.map (fun it => priceOf ps it.product_id * it.quantity)).sum := by
  have haux : ∀ (l : List CartItem) (acc : Int),
      l.foldl
        (fun acc it =>
          match findProduct ps it.product_id with
          | some p => acc + p.price * it.quantity
          | none => acc) acc
        = acc + (l.map (fun it => priceOf ps it.product_id * it.quantity)).sum := by
    intro l
    induction l with
    | nil => intro acc; simp
    | cons it rest ih =>
        intro acc
        simp only [List.foldl_cons, List.map_cons, List.sum_cons]
        cases hfind : findProduct ps it.product_id with
        | none =>
            simp only [hfind, ih, priceOf]
            ring
        | some p =>
            simp only [hfind, ih, priceOf]
            ring
  simpa using haux items 0

theorem find_filter_contains (ids : List String) (pid : String)
    (hmem : ids.contains pid = true) :
    ∀ l : List Product,
      (l.filter (fun p => ids.contains p.id)).find? (fun p => p.id == pid)
        = l.find? (fun p => p.id == pid) := by
  intro l
  induction l with
  | nil => rfl
  | cons a l ih =>
      cases ha : ids.contains a.id with
      | true =>
          rw [List.filter_cons_of_pos (by simpa using ha)]
          cases hid : (a.id == pid : Bool) with
          | true =>
              rw [List.find?_cons_of_pos _ (by simpa using hid),
                List.find?_cons_of_pos _ (by simpa using hid)]
          | false =>
              rw [List.find?_cons_of_neg _ (by simp [hid]),
                List.find?_cons_of_neg _ (by simp [hid]), ih]
      | false =>
          rw [List.filter_cons_of_neg (by simpa using ha)]
          have hne : (a.id == pid) = false := by
            cases hq : (a.id == pid : Bool)
            · rfl
            · exfalso
              have hq' : a.id = pid := by simpa using hq
              rw [hq'] at ha
              rw [hmem] at ha
              cases ha
          rw [List.find?_cons_of_neg _ (by simp [hne]), ih]

theorem findProduct_fetchSnapshot (db : DB) (items : List CartItem) (it : CartItem)
    (hit : it ∈ items) :
    findProduct (fetchSnapshot db items) it.product_id
      = findProduct db.products it.product_id := by
  have hmem : (requestedIds items).contains it.product_id = true := by
    have hx : it.product_id ∈ requestedIds items :=
      List.mem_map_of_mem (fun jt => jt.product_id) hit
    simpa using hx
  exact find_filter_contains (requestedIds items) it.product_id hmem db.products

theorem validateItems_none_found (ps : List Product) :
    ∀ items : List CartItem, validateItems ps items = none →
      ∀ it ∈ items, ∃ p, findProduct ps it.product_id = some p
        ∧ it.quantity ≤ p.stock := by
  intro items
  induction items with
  | nil => intro _ it hit; simp at hit
  | cons jt rest ih =>
      intro h it hit
      simp only [validateItems] at h
      split at h
      · simp at h
      · rename_i p hfind
        split at h
        · simp at h
        · rename_i hs
          rcases List.mem_cons.mp hit with heq | hmem
          · subst heq
            exact ⟨p, hfind, by omega⟩
          · exact ih h it hmem

/-- C3: conservation.  Whenever the handler answers 200, the returned
order's stored total equals the sum of `price * quantity` over exactly
the line-item rows persisted for it, and each such row's price is the
catalog price of its product as read during validation (step 2), not any
later value. -/
theorem order_total_conserved (f : StoreFaults) (uid : String)
    (items : List CartItem) (db : DB)
    (h : (handleOrder f uid (ItemsField.given items) db).1.status = 200) :
    ∃ order : Order,
      (handleOrder f uid (ItemsField.given items) db).1.body = Body.ok order ∧
      (handleOrder f uid (ItemsField.given items) db).2.1.order_items
        = db.order_items ++ mkOrderItems order.id (fetchSnapshot db items) items ∧
      order.total_amount
        = ((mkOrderItems order.id (fetchSnapshot db items) items).map
            (fun oi => oi.price * oi.quantity)).sum ∧
      ∀ oi ∈ mkOrderItems order.id (fetchSnapshot db items) items,
        ∃ p, findProduct db.products oi.product_id = some p ∧ oi.price = p.price := by
  obtain ⟨hval, hbody, hdb, -⟩ := handleOrder_success_shape f uid items db h
  refine ⟨⟨db.nextOrderId, uid, computeTotal (fetchSnapshot db items) items, "pending"⟩,
    ?_, ?_, ?_, ?_⟩
  · rw [hbody]
  · rw [hdb, (applyStockUpdates_frame f (fetchSnapshot db items) items _).2.1]
  · show computeTotal (fetchSnapshot db items) items = _
    rw [computeTotal_eq_sum]
    simp only [mkOrderItems, List.map_map]
    rfl
  · intro oi hoi
    simp only [mkOrderItems, List.mem_map] at hoi
    rcases hoi with ⟨it, hit, rfl⟩
    rcases validateItems_none_found (fetchSnapshot db items) items hval it hit
      with ⟨p, hfind, -⟩
    refine ⟨p, ?_, ?_⟩
    · rw [← findProduct_fetchSnapshot db items it hit]
      exact hfind
    · show priceOf (fetchSnapshot db items) it.product_id = p.price
      simp [priceOf, hfind]

/-- Witness for C3 at the specification's scenario: product A with
stock 5 and price 10.00, request quantity 3; the handler answers 200 and
the conservation statement holds there (total 30.00, one line item priced
10.00). -/
theorem order_total_conserved_witness :
    (handleOrder noFaults "u" (ItemsField.given [⟨"A", 3⟩]) widgetDB).1.status = 200 ∧
    (∃ order : Order,
      (handleOrder noFaults "u" (ItemsField.given [⟨"A", 3⟩]) widgetDB).1.body
        = Body.ok order ∧
      (handleOrder noFaults "u" (ItemsField.given [⟨"A", 3⟩]) widgetDB).2.1.order_items
        = widgetDB.order_items
          ++ mkOrderItems order.id (fetchSnapshot widgetDB [⟨"A", 3⟩]) [⟨"A", 3⟩] ∧
      order.total_amount
        = ((mkOrderItems order.id (fetchSnapshot widgetDB [⟨"A", 3⟩]) [⟨"A", 3⟩]).map
            (fun oi => oi.price * oi.quantity)).sum ∧
      ∀ oi ∈ mkOrderItems order.id (fetchSnapshot widgetDB [⟨"A", 3⟩]) [⟨"A", 3⟩],
        ∃ p, findProduct widgetDB.products oi.product_id = some p
          ∧ oi.price = p.price) :=
  ⟨by decide, order_total_conserved noFaults "u" [⟨"A", 3⟩] widgetDB (by decide)⟩

/-- C9: one line item per request entry, never merged.  Whenever the
handler answers 200, the rows appended to `order_items` are in bijection
with the request entries: same count, and the i-th row carries the i-th
entry's product id and quantity verbatim (duplicate entries stay
separate). -/
theorem one_line_item_per_entry (f : StoreFaults) (uid : String)
    (items : List CartItem) (db : DB)
    (h : (handleOrder f uid (ItemsField.given items) db).1.status = 200) :
    ((handleOrder f uid (ItemsField.given items) db).2.1.order_items.drop
        db.order_items.length).map (fun oi => (oi.product_id, oi.quantity))
      = items.map (fun it => (it.product_id, it.quantity)) ∧
    (handleOrder f uid (ItemsField.given items) db).2.1.order_items.length
      = db.order_items.length + items.length := by
  obtain ⟨-, -, hdb, -⟩ := handleOrder_success_shape f uid items db h
  rw [hdb, (applyStockUpdates_frame f (fetchSnapshot db items) items _).2.1]
  dsimp only
  constructor
  · rw [List.drop_left]
    simp only [mkOrderItems, List.map_map]
    rfl
  · simp [mkOrderItems]

/-- Witness for C9 at a request with duplicate entries `[(A,1), (A,1)]`:
the committed order has two separate line items of quantity 1 each. -/
theorem one_line_item_per_entry_witness :
    (handleOrder noFaults "u" (ItemsField.given [⟨"A", 1⟩, ⟨"A", 1⟩]) widgetDB).1.status
        = 200 ∧
    (((handleOrder noFaults "u" (ItemsField.given [⟨"A", 1⟩, ⟨"A", 1⟩])
          widgetDB).2.1.order_items.drop widgetDB.order_items.length).map
        (fun oi => (oi.product_id, oi.quantity))
      = ([⟨"A", 1⟩, ⟨"A", 1⟩] : List CartItem).map (fun it => (it.product_id, it.quantity)) ∧
    (handleOrder noFaults "u" (ItemsField.given [⟨"A", 1⟩, ⟨"A", 1⟩])
          widgetDB).2.1.order_items.length
      = widgetDB.order_items.length + ([⟨"A", 1⟩, ⟨"A", 1⟩] : List CartItem).length) :=
  ⟨by decide, one_line_item_per_entry noFaults "u" [⟨"A", 1⟩, ⟨"A", 1⟩] widgetDB (by decide)⟩

theorem validateItems_insufficient (ps : List Product) :
    ∀ items : List CartItem,
      (∀ it ∈ items, (findProduct ps it.product_id).isSome) →
      (∃ it ∈ items, ∃ p, findProduct ps it.product_id = some p ∧ p.stock < it.quantity) →
      ∃ it ∈ items, ∃ p, findProduct ps it.product_id = some p ∧ p.stock < it.quantity ∧
        validateItems ps items = some ⟨400, Body.err
          ("Insufficient stock for " ++ p.name ++ ". Available: " ++ toString p.stock)⟩ := by
  intro items
  induction items with
  | nil =>
      intro _ hex
      rcases hex with ⟨it, hit, -⟩
      simp at hit
  | cons jt rest ih =>
      intro hfound hex
      cases hfind : findProduct ps jt.product_id with
      | none =>
          exfalso
          have hj := hfound jt (List.mem_cons_self jt rest)
          rw [hfind] at hj
          simp at hj
      | some p =>
          by_cases hs : p.stock < jt.quantity
          · refine ⟨jt, List.mem_cons_self jt rest, p, hfind, hs, ?_⟩
            simp only [validateItems, hfind]
            rw [if_pos hs]
          · have hex' : ∃ it ∈ rest, ∃ q, findProduct ps it.product_id = some q
                ∧ q.stock < it.quantity := by
              rcases hex with ⟨it, hit, q, hfq, hlt⟩
              rcases List.mem_cons.mp hit with heq | hmem
              · subst heq
                rw [hfind] at hfq
                cases hfq
                exact absurd hlt hs
              · exact ⟨it, hmem, q, hfq, hlt⟩
            have hfound' : ∀ it ∈ rest, (findProduct ps it.product_id).isSome :=
              fun it hit => hfound it (List.mem_cons_of_mem jt hit)
            rcases ih hfound' hex' with ⟨it, hit, q, hfq, hlt, hvr⟩
            refine ⟨it, List.mem_cons_of_mem jt hit, q, hfq, hlt, ?_⟩
            simp only [validateItems, hfind]
            rw [if_neg hs]
            exact hvr

theorem validateItems_missing (ps : List Product) :
    ∀ items : List CartItem,
      (∀ it ∈ items, ∀ p, findProduct ps it.product_id = some p → it.quantity ≤ p.stock) →
      (∃ it ∈ items, findProduct ps it.product_id = none) →
      ∃ it ∈ items, findProduct ps it.product_id = none ∧
        validateItems ps items = some ⟨404, Body.err
          ("Product " ++ it.product_id ++ " not found")⟩ := by
  intro items
  induction items with
  | nil =>
      intro _ hex
      rcases hex with ⟨it, hit, -⟩
      simp at hit
  | cons jt rest ih =>
      intro hvalid hex
      cases hfind : findProduct ps jt.product_id with
      | none =>
          refine ⟨jt, List.mem_cons_self jt rest, hfind, ?_⟩
          simp only [validateItems, hfind]
      | some p =>
          have hle := hvalid jt (List.mem_cons_self jt rest) p hfind
          have hex' : ∃ it ∈ rest, findProduct ps it.product_id = none := by
            rcases hex with ⟨it, hit, hnone⟩
            rcases List.mem_cons.mp hit with heq | hmem
            · subst heq
              rw [hfind] at hnone
              cases hnone
            · exact ⟨it, hmem, hnone⟩
          have hvalid' : ∀ it ∈ rest, ∀ q, findProduct ps it.product_id = some q
              → it.quantity ≤ q.stock :=
            fun it hit q hq => hvalid it (List.mem_cons_of_mem jt hit) q hq
          rcases ih hvalid' hex' with ⟨it, hit, hnone, hvr⟩
          refine ⟨it, List.mem_cons_of_mem jt hit, hnone, ?_⟩
          simp only [validateItems, hfind]
          rw [if_neg (by omega)]
          exact hvr

/-- C6 amended: if every requested id is present in the catalog and some
line's quantity exceeds that product's stock, the whole operation fails
with the 400 "Insufficient stock" response naming the product and its
available stock (the requested quantity is not part of the message), the
database is unchanged — no order, no line items, no stock change — and
the only store operation attempted is the product read. -/
theorem insufficient_stock_aborts_order (f : StoreFaults) (uid : String)
    (items : List CartItem) (db : DB)
    (hfetch : f.fetchProductsFails = false)
    (hfound : ∀ it ∈ items, (findProduct db.products it.product_id).isSome)
    (hshort : ∃ it ∈ items, ∃ p, findProduct db.products it.product_id = some p
        ∧ p.stock < it.quantity) :
    ∃ it ∈ items, ∃ p, findProduct db.products it.product_id = some p
      ∧ p.stock < it.quantity ∧
      handleOrder f uid (ItemsField.given items) db
        = (⟨400, Body.err ("Insufficient stock for " ++ p.name ++ ". Available: "
            ++ toString p.stock)⟩, db,
           [StoreEvent.fetchProducts (requestedIds items)]) := by
  have hfound' : ∀ it ∈ items,
      (findProduct (fetchSnapshot db items) it.product_id).isSome := by
    intro it hit
    rw [findProduct_fetchSnapshot db items it hit]
    exact hfound it hit
  have hshort' : ∃ it ∈ items,
      ∃ p, findProduct (fetchSnapshot db items) it.product_id = some p
        ∧ p.stock < it.quantity := by
    rcases hshort with ⟨it, hit, p, hp, hs⟩
    exact ⟨it, hit, p, by rw [findProduct_fetchSnapshot db items it hit]; exact hp, hs⟩
  rcases validateItems_insufficient (fetchSnapshot db items) items hfound' hshort'
    with ⟨it, hit, p, hfp, hlt, hval⟩
  have hne : items.isEmpty = false := by
    cases items
    · simp at hit
    · rfl
  refine ⟨it, hit, p, ?_, hlt, ?_⟩
  · rw [← findProduct_fetchSnapshot db items it hit]
    exact hfp
  · rw [handleOrder_given]
    simp [hne, hfetch,
      commitPhase_of_validation_failure f uid items (fetchSnapshot db items) db _ hval]

/-- Witness for C6 (amended) at the specification's scenario: product B
with stock 2, request quantity 5. -/
theorem insufficient_stock_aborts_order_witness :
    ((noFaults).fetchProductsFails = false) ∧
    (∀ it ∈ ([⟨"B", 5⟩] : List CartItem),
      (findProduct [⟨"B", "B", 2000, 2⟩] it.product_id).isSome) ∧
    (∃ it ∈ ([⟨"B", 5⟩] : List CartItem),
      ∃ p, findProduct [⟨"B", "B", 2000, 2⟩] it.product_id = some p
        ∧ p.stock < it.quantity) ∧
    (∃ it ∈ ([⟨"B", 5⟩] : List CartItem),
      ∃ p, findProduct (DB.products ⟨[⟨"B", "B", 2000, 2⟩], [], [], 1⟩) it.product_id
          = some p
        ∧ p.stock < it.quantity ∧
        handleOrder noFaults "u" (ItemsField.given [⟨"B", 5⟩])
            ⟨[⟨"B", "B", 2000, 2⟩], [], [], 1⟩
          = (⟨400, Body.err ("Insufficient stock for " ++ p.name ++ ". Available: "
              ++ toString p.stock)⟩, ⟨[⟨"B", "B", 2000, 2⟩], [], [], 1⟩,
             [StoreEvent.fetchProducts (requestedIds [⟨"B", 5⟩])])) :=
  ⟨rfl, by decide,
    ⟨⟨"B", 5⟩, by decide, ⟨"B", "B", 2000, 2⟩, by decide, by decide⟩,
    insufficient_stock_aborts_order noFaults "u" [⟨"B", 5⟩]
      ⟨[⟨"B", "B", 2000, 2⟩], [], [], 1⟩ rfl (by decide)
      ⟨⟨"B", 5⟩, by decide, ⟨"B", "B", 2000, 2⟩, by decide, by decide⟩⟩

/-- C7: if some requested product id is absent from the catalog while
every requested id that is present has sufficient stock, the whole
operation fails with the 404 response naming a missing id, the database
is unchanged — no order row, no line items, no stock change — and the
only store operation attempted is the product read. -/
theorem missing_product_aborts_order (f : StoreFaults) (uid : String)
    (items : List CartItem) (db : DB)
    (hfetch : f.fetchProductsFails = false)
    (hvalid : ∀ it ∈ items, ∀ p, findProduct db.products it.product_id = some p
        → it.quantity ≤ p.stock)
    (hmissing : ∃ it ∈ items, findProduct db.products it.product_id = none) :
    ∃ it ∈ items, findProduct db.products it.product_id = none ∧
      handleOrder f uid (ItemsField.given items) db
        = (⟨404, Body.err ("Product " ++ it.product_id ++ " not found")⟩, db,
           [StoreEvent.fetchProducts (requestedIds items)]) := by
  have hvalid' : ∀ it ∈ items, ∀ p,
      findProduct (fetchSnapshot db items) it.product_id = some p
        → it.quantity ≤ p.stock := by
    intro it hit p hp
    rw [findProduct_fetchSnapshot db items it hit] at hp
    exact hvalid it hit p hp
  have hmissing' : ∃ it ∈ items,
      findProduct (fetchSnapshot db items) it.product_id = none := by
    rcases hmissing with ⟨it, hit, hnone⟩
    exact ⟨it, hit, by rw [findProduct_fetchSnapshot db items it hit]; exact hnone⟩
  rcases validateItems_missing (fetchSnapshot db items) items hvalid' hmissing'
    with ⟨it, hit, hnone, hval⟩
  have hne : items.isEmpty = false := by
    cases items
    · simp at hit
    · rfl
  refine ⟨it, hit, ?_, ?_⟩
  · rw [← findProduct_fetchSnapshot db items it hit]
    exact hnone
  · rw [handleOrder_given]
    simp [hne, hfetch,
      commitPhase_of_validation_failure f uid items (fetchSnapshot db items) db _ hval]

/-- Witness for C7 at the specification's test: items
`[(existing, 1), (nonexistent, 1)]` against a catalog holding only the
existing product. -/
theorem missing_product_aborts_order_witness :
    ((noFaults).fetchProductsFails = false) ∧
    (∀ it ∈ ([⟨"E", 1⟩, ⟨"X", 1⟩] : List CartItem), ∀ p,
      findProduct [⟨"E", "E", 1000, 5⟩] it.product_id = some p
        → it.quantity ≤ p.stock) ∧
    (∃ it ∈ ([⟨"E", 1⟩, ⟨"X", 1⟩] : List CartItem),
      findProduct [⟨"E", "E", 1000, 5⟩] it.product_id = none) ∧
    (∃ it ∈ ([⟨"E", 1⟩, ⟨"X", 1⟩] : List CartItem),
      findProduct (DB.products ⟨[⟨"E", "E", 1000, 5⟩], [], [], 1⟩) it.product_id = none ∧
      handleOrder noFaults "u" (ItemsField.given [⟨"E", 1⟩, ⟨"X", 1⟩])
          ⟨[⟨"E", "E", 1000, 5⟩], [], [], 1⟩
        = (⟨404, Body.err ("Product " ++ it.product_id ++ " not found")⟩,
           ⟨[⟨"E", "E", 1000, 5⟩], [], [], 1⟩,
           [StoreEvent.fetchProducts (requestedIds [⟨"E", 1⟩, ⟨"X", 1⟩])])) :=
  ⟨rfl,
    (by
      intro it hit p hp
      fin_cases hit
      · injection hp with h
        subst h
        decide
      · exact Option.noConfusion hp),
    ⟨⟨"X", 1⟩, by decide, by decide⟩,
    missing_product_aborts_order noFaults "u" [⟨"E", 1⟩, ⟨"X", 1⟩]
      ⟨[⟨"E", "E", 1000, 5⟩], [], [], 1⟩ rfl
      (by
        intro it hit p hp
        fin_cases hit
        · injection hp with h
          subst h
          decide
        · exact Option.noConfusion hp)
      ⟨⟨"X", 1⟩, by decide, by decide⟩⟩

theorem find_map_setStock_self (pid : String) (s : Int) (l : List Product) :
    (l.map (fun q => if q.id == pid then { q with stock := s } else q)).find?
        (fun q => q.id == pid)
      = (l.find? (fun q => q.id == pid)).map (fun q => { q with stock := s }) := by
  rw [List.find?_map]
  have hpred : ((fun q : Product => q.id == pid) ∘
      (fun q => if q.id == pid then { q with stock := s } else q))
      = (fun q : Product => q.id == pid) := by
    funext q
    by_cases h : (q.id == pid : Bool)
    · simp only [Function.comp_apply, if_pos h]
    · simp only [Function.comp_apply, if_neg h]
  rw [hpred]
  cases hfind : l.find? (fun q => q.id == pid) with
  | none => rfl
  | some q =>
      have hq : (q.id == pid) = true := by simpa using List.find?_some hfind
      show some (if q.id == pid then { q with stock := s } else q) = some { q with stock := s }
      rw [if_pos hq]

theorem find_map_setStock_ne (pid pid' : String) (s : Int) (hne : pid' ≠ pid)
    (l : List Product) :
    (l.map (fun q => if q.id == pid then { q with stock := s } else q)).find?
        (fun q => q.id == pid')
      = l.find? (fun q => q.id == pid') := by
  rw [List.find?_map]
  have hpred : ((fun q : Product => q.id == pid') ∘
      (fun q => if q.id == pid then { q with stock := s } else q))
      = (fun q : Product => q.id == pid') := by
    funext q
    by_cases h : (q.id == pid : Bool)
    · simp only [Function.comp_apply, if_pos h]
    · simp only [Function.comp_apply, if_neg h]
  rw [hpred]
  cases hfind : l.find? (fun q => q.id == pid') with
  | none => rfl
  | some q =>
      have hq : (q.id == pid') = true := by simpa using List.find?_some hfind
      have hqid : (q.id == pid) = false := by
        have hq' : q.id = pid' := by simpa using hq
        rw [hq']
        exact beq_eq_false_iff_ne.mpr hne
      show some (if q.id == pid then { q with stock := s } else q) = some q
      rw [if_neg (by simp [hqid])]

theorem stockOf_setStock_self (db : DB) (pid : String) (s : Int) :
    stockOf (setStock db pid s) pid = (stockOf db pid).map (fun _ => s) := by
  simp only [stockOf, setStock]
  rw [find_map_setStock_self]
  cases db.products.find? (fun q => q.id == pid) <;> rfl

theorem stockOf_setStock_ne (db : DB) (pid pid' : String) (s : Int) (hne : pid' ≠ pid) :
    stockOf (setStock db pid s) pid' = stockOf db pid' := by
  simp only [stockOf, setStock]
  rw [find_map_setStock_ne pid pid' s hne]

theorem lastRequested_cons_ne (pid : String) (it : CartItem) (rest : List CartItem)
    (hne : it.product_id ≠ pid) :
    lastRequested pid (it :: rest) = lastRequested pid rest := by
  simp only [lastRequested]
  cases lastRequested pid rest with
  | some jt => rfl
  | none => simp [beq_eq_false_iff_ne.mpr hne]

theorem lastRequested_cons_self (pid : String) (it : CartItem) (rest : List CartItem)
    (heq : it.product_id = pid) (h : lastRequested pid rest = none) :
    lastRequested pid (it :: rest) = some it := by
  simp only [lastRequested, h]
  rw [if_pos (by simp [heq])]

theorem lastRequested_cons_some (pid : String) (it jt : CartItem)
    (rest : List CartItem) (h : lastRequested pid rest = some jt) :
    lastRequested pid (it :: rest) = some jt := by
  simp only [lastRequested, h]

theorem lastRequested_mem (pid : String) :
    ∀ (items : List CartItem) (it : CartItem), lastRequested pid items = some it →
      it ∈ items ∧ it.product_id = pid := by
  intro items
  induction items with
  | nil => intro it h; simp [lastRequested] at h
  | cons jt rest ih =>
      intro it h
      simp only [lastRequested] at h
      cases hl : lastRequested pid rest with
      | some kt =>
          rw [hl] at h
          cases h
          rcases ih _ hl with ⟨hm, hp⟩
          exact ⟨List.mem_cons_of_mem jt hm, hp⟩
      | none =>
          rw [hl] at h
          by_cases hj : (jt.product_id == pid : Bool)
          · rw [if_pos hj] at h
            cases h
            exact ⟨List.mem_cons_self jt rest, by simpa using hj⟩
          · rw [if_neg hj] at h
            exact Option.noConfusion h

theorem applyStockUpdates_cons_none (f : StoreFaults) (ps : List Product)
    (it : CartItem) (rest : List CartItem) (db : DB)
    (hfind : findProduct ps it.product_id = none) :
    applyStockUpdates f ps (it :: rest) db = applyStockUpdates f ps rest db := by
  simp only [applyStockUpdates, hfind]

theorem applyStockUpdates_cons_some_fst (f : StoreFaults) (ps : List Product)
    (it : CartItem) (rest : List CartItem) (db : DB) (p : Product)
    (hfind : findProduct ps it.product_id = some p) :
    (applyStockUpdates f ps (it :: rest) db).1
      = (applyStockUpdates f ps rest
          (if f.stockUpdateFails it.product_id || p.stock - it.quantity < 0 then db
            else setStock db it.product_id (p.stock - it.quantity))).1 := by
  simp only [applyStockUpdates, hfind]

theorem stockOf_applyStockUpdates (f : StoreFaults) (ps : List Product)
    (hf : ∀ s, f.stockUpdateFails s = false) :
    ∀ (items : List CartItem) (db : DB) (pid : String),
      (∀ it ∈ items, it.product_id = pid →
        ∃ p, findProduct ps pid = some p ∧ it.quantity ≤ p.stock) →
      (match lastRequested pid items with
       | some itl =>
           ∃ p, findProduct ps pid = some p ∧
             stockOf (applyStockUpdates f ps items db).1 pid
               = (stockOf db pid).map (fun _ => p.stock - itl.quantity)
       | none => stockOf (applyStockUpdates f ps items db).1 pid = stockOf db pid) := by
  intro items
  induction items with
  | nil => intro db pid _; rfl
  | cons it rest ih =>
      intro db pid hok
      have hok' : ∀ jt ∈ rest, jt.product_id = pid →
          ∃ p, findProduct ps pid = some p ∧ jt.quantity ≤ p.stock :=
        fun jt hjt => hok jt (List.mem_cons_of_mem it hjt)
      cases hfind : findProduct ps it.product_id with
      | none =>
          have hne : it.product_id ≠ pid := by
            intro heq
            rcases hok it (List.mem_cons_self it rest) heq with ⟨p, hp, -⟩
            rw [heq, hp] at hfind
            cases hfind
          rw [lastRequested_cons_ne pid it rest hne,
            applyStockUpdates_cons_none f ps it rest db hfind]
          exact ih db pid hok'
      | some p' =>
          by_cases hid : it.product_id = pid
          · have hfindpid : findProduct ps pid = some p' := by
              rw [← hid]; exact hfind
            rcases hok it (List.mem_cons_self it rest) hid with ⟨p, hp, hle⟩
            have hpp : p' = p := by
              rw [hfindpid] at hp
              exact Option.some.inj hp
            subst hpp
            have hdb' : (if f.stockUpdateFails it.product_id
                  || p'.stock - it.quantity < 0 then db
                else setStock db it.product_id (p'.stock - it.quantity))
                = setStock db it.product_id (p'.stock - it.quantity) := by
              rw [if_neg]
              rw [hf]
              simp only [Bool.false_or, decide_eq_true_eq]
              omega
            cases hlast : lastRequested pid rest with
            | some jt =>
                rw [lastRequested_cons_some pid it jt rest hlast]
                refine ⟨p', hfindpid, ?_⟩
                have ihh := ih (setStock db it.product_id
                  (p'.stock - it.quantity)) pid hok'
                rw [hlast] at ihh
                rcases ihh with ⟨q, hq, hstock⟩
                have hqq : p' = q := by
                  rw [hfindpid] at hq
                  exact Option.some.inj hq
                subst hqq
                rw [applyStockUpdates_cons_some_fst f ps it rest db p' hfind, hdb',
                  hstock, hid, stockOf_setStock_self]
                cases stockOf db pid <;> rfl
            | none =>
                rw [lastRequested_cons_self pid it rest hid hlast]
                refine ⟨p', hfindpid, ?_⟩
                have ihh := ih (setStock db it.product_id
                  (p'.stock - it.quantity)) pid hok'
                rw [hlast] at ihh
                rw [applyStockUpdates_cons_some_fst f ps it rest db p' hfind, hdb',
                  ihh, hid, stockOf_setStock_self]
          · rw [lastRequested_cons_ne pid it rest hid,
              applyStockUpdates_cons_some_fst f ps it rest db p' hfind]
            have hsame : stockOf (if f.stockUpdateFails it.product_id
                  || p'.stock - it.quantity < 0 then db
                else setStock db it.product_id (p'.stock - it.quantity)) pid
                = stockOf db pid := by
              split
              · rfl
              · exact stockOf_setStock_ne db it.product_id pid _
                  (fun hx => hid hx.symm)
            have ihh := ih (if f.stockUpdateFails it.product_id
                  || p'.stock - it.quantity < 0 then db
                else setStock db it.product_id (p'.stock - it.quantity)) pid hok'
            cases hlast : lastRequested pid rest with
            | some jt =>
                rw [hlast] at ihh
                rcases ihh with ⟨q, hq, hstock⟩
                exact ⟨q, hq, by rw [hstock, hsame]⟩
            | none =>
                rw [hlast] at ihh
                rw [ihh, hsame]

/-- C4 amended: for every successful run whose stock-update writes are
not refused by the store, a product's final stock is its validated
(snapshot) stock minus the quantity of the LAST request entry naming it
— each update overwrites the previous one using the validation snapshot,
so duplicate entries do not accumulate — and a product named by no entry
keeps its stock.  When every product appears in at most one entry this
is exactly "validated stock minus that entry's quantity". -/
theorem final_stock_from_last_entry (f : StoreFaults) (uid : String)
    (items : List CartItem) (db : DB) (pid : String)
    (hf : ∀ s, f.stockUpdateFails s = false)
    (h : (handleOrder f uid (ItemsField.given items) db).1.status = 200) :
    match lastRequested pid items with
    | some itl =>
        stockOf (handleOrder f uid (ItemsField.given items) db).2.1 pid
          = (stockOf db pid).map (fun s => s - itl.quantity)
    | none =>
        stockOf (handleOrder f uid (ItemsField.given items) db).2.1 pid
          = stockOf db pid := by
  obtain ⟨hval, -, hdb, -⟩ := handleOrder_success_shape f uid items db h
  have hok : ∀ it ∈ items, it.product_id = pid →
      ∃ p, findProduct (fetchSnapshot db items) pid = some p
        ∧ it.quantity ≤ p.stock := by
    intro it hit heq
    rcases validateItems_none_found (fetchSnapshot db items) items hval it hit
      with ⟨p, hp, hle⟩
    exact ⟨p, by rw [← heq]; exact hp, hle⟩
  have hmain := stockOf_applyStockUpdates f (fetchSnapshot db items) hf items
    { products := db.products,
      orders := db.orders ++
        [⟨db.nextOrderId, uid, computeTotal (fetchSnapshot db items) items, "pending"⟩],
      order_items := db.order_items ++
        mkOrderItems db.nextOrderId (fetchSnapshot db items) items,
      nextOrderId := db.nextOrderId + 1 } pid hok
  have hsame : stockOf
      { products := db.products,
        orders := db.orders ++
          [⟨db.nextOrderId, uid, computeTotal (fetchSnapshot db items) items, "pending"⟩],
        order_items := db.order_items ++
          mkOrderItems db.nextOrderId (fetchSnapshot db items) items,
        nextOrderId := db.nextOrderId + 1 } pid = stockOf db pid := rfl
  rw [hdb]
  cases hlast : lastRequested pid items with
  | some itl =>
      rw [hlast] at hmain
      rcases hmain with ⟨p, hp, hstock⟩
      rw [hstock, hsame]
      rcases lastRequested_mem pid items itl hlast with ⟨hmem, hpid⟩
      have hfs := findProduct_fetchSnapshot db items itl hmem
      rw [hpid] at hfs
      have hfd : findProduct db.products pid = some p := by
        rw [← hfs]; exact hp
      have hsdb : stockOf db pid = some p.stock := by
        simp only [stockOf]
        rw [show db.products.find? (fun q => q.id == pid) = some p from hfd]
        rfl
      rw [hsdb]
      rfl
  | none =>
      rw [hlast] at hmain
      rw [hmain, hsame]

/-- Witness for C4 (amended) at the duplicate-entry request
`[(A,1), (A,1)]` against stock 5: the last entry alone takes effect and
the final stock is 5 - 1 = 4. -/
theorem final_stock_from_last_entry_witness :
    (∀ s, noFaults.stockUpdateFails s = false) ∧
    (handleOrder noFaults "u" (ItemsField.given [⟨"A", 1⟩, ⟨"A", 1⟩])
        widgetDB).1.status = 200 ∧
    (match lastRequested "A" [⟨"A", 1⟩, ⟨"A", 1⟩] with
     | some itl =>
         stockOf (handleOrder noFaults "u" (ItemsField.given [⟨"A", 1⟩, ⟨"A", 1⟩])
             widgetDB).2.1 "A"
           = (stockOf widgetDB "A").map (fun s => s - itl.quantity)
     | none =>
         stockOf (handleOrder noFaults "u" (ItemsField.given [⟨"A", 1⟩, ⟨"A", 1⟩])
             widgetDB).2.1 "A"
           = stockOf widgetDB "A") :=
  ⟨fun _ => rfl, by decide,
    final_stock_from_last_entry noFaults "u" [⟨"A", 1⟩, ⟨"A", 1⟩] widgetDB "A"
      (fun _ => rfl) (by decide)⟩
